import Mathlib

set_option maxHeartbeats 1000000

/-! Shallow embedding of `jina/executors/indexers/vector/__init__.py`
(class `BaseNumpyIndexer`): an append-only, gzip-backed numpy vector store.
Machine data is modelled as lists of byte values; gzip compression is the
identity on content (the artifact records the decompressed byte stream,
plus the distinguished states of a missing file and of a stream left
truncated by an unclosed write session). -/

instance {ε α : Type} [DecidableEq ε] [DecidableEq α] :
    DecidableEq (Except ε α) := fun x y =>
  match x, y with
  | .ok a, .ok b =>
    if h : a = b then .isTrue (by rw [h])
    else .isFalse (by simp [Except.ok.injEq, h])
  | .error a, .error b =>
    if h : a = b then .isTrue (by rw [h])
    else .isFalse (by simp [Except.error.injEq, h])
  | .ok _, .error _ => .isFalse (fun h => Except.noConfusion h)
  | .error _, .ok _ => .isFalse (fun h => Except.noConfusion h)

/-- Numpy scalar dtypes used by the store. The source compares dtypes by
their `name` strings; the names are pairwise distinct, so constructor
equality coincides with the name comparison in the source. -/
inductive DType where
  | float32 | float64 | int8 | int32 | int64
  deriving DecidableEq, Repr

/-- Byte width of one scalar (`numpy.dtype.itemsize`). -/
def DType.itemsize : DType → Nat
  | .float32 => 4
  | .float64 => 8
  | .int8 => 1
  | .int32 => 4
  | .int64 => 8

/-- A numpy ndarray: shape, dtype and raw row-major bytes (`tobytes()`),
one entry of `data` per byte. -/
structure NDArray where
  shape : List Nat
  dtype : DType
  data : List Nat
  deriving DecidableEq, Repr

/-- The distinct messages the component sends to the logging channel. -/
inductive LogMsg where
  | loadingIndex
  | dataNotFound
  | brokenIndexFile
  | inconsistentSize
  | emptyIndex
  deriving DecidableEq, Repr

/-- A severity-tagged log line (the collaborator logging channel). -/
inductive Log where
  | info (m : LogMsg)
  | warning (m : LogMsg)
  | error (m : LogMsg)
  deriving DecidableEq, Repr

/-- State of the on-disk gzip artifact: missing, a stream truncated by an
unclosed write session (reading it raises `EOFError`), or a complete
stream whose decompressed content is `data`. -/
inductive FileState where
  | absent
  | truncated
  | bytes (data : List Nat)
  deriving DecidableEq, Repr

/-- Appending raw bytes through the write handler: creates the file when
missing; a stream already left truncated stays unreadable. -/
def FileState.write : FileState → List Nat → FileState
  | .absent, b => .bytes b
  | .bytes d, b => .bytes (d ++ b)
  | .truncated, _ => .truncated

/-- Decompressed byte length of the artifact (0 when absent/unreadable). -/
def FileState.byteLength : FileState → Nat
  | .bytes d => d.length
  | _ => 0

/-- The typed validation failures `add` can raise (`ValueError` or
`TypeError` in the source, distinguished here by cause). -/
inductive AddErr where
  | rankError | dimMismatch | typeMismatch | countMismatch | keyTypeMismatch
  deriving DecidableEq, Repr

/-- The in-memory state of a `BaseNumpyIndexer` instance: the `__init__`
fields `num_dim`, `dtype`, `compress_level`, `key_bytes`, `key_dtype`,
plus the inherited running count `_size` (here `size`), the key lookup
table `int2ext_key` and the backing file at `index_abspath`. -/
structure Store where
  num_dim : Option Nat
  dtype : Option DType
  compress_level : Nat
  key_bytes : List Nat
  key_dtype : Option DType
  int2ext_key : Option NDArray
  size : Nat
  file : FileState
  deriving DecidableEq, Repr

/-- Modelled from the spec: the parent executor class (not among the
source files) owns `int2ext_key`, the running count `_size` and the
backing path; per the spec the store is created empty, the lookup table
starts unset, the count at zero, and no file exists before the first
write session. The fields of `__init__` itself are direct: `num_dim`
and `dtype` start as `None`, `key_bytes` empty, `key_dtype` as `None`,
with the given `compress_level`. -/
def Store.init (compress_level : Nat) : Store :=
  { num_dim := none, dtype := none, compress_level := compress_level,
    key_bytes := [], key_dtype := none, int2ext_key := none,
    size := 0, file := .absent }

/-- The unconditional write section at the end of `add`: stream the
vector bytes, extend `key_bytes`, record the key dtype, bump `_size` by
`keys.shape[0]`. -/
def Store.writeBatch (s : Store) (keys vectors : NDArray) : Store :=
  { s with
    file := s.file.write vectors.data,
    key_bytes := s.key_bytes ++ keys.data,
    key_dtype := some keys.dtype,
    size := s.size + keys.shape.headI }

/-- `BaseNumpyIndexer.add`. Returns the post state together with `none`
on success, or the unchanged state together with the raised failure.
`if not self.num_dim` in the source is Python truthiness: the
first-append branch also fires when `num_dim` was recorded as 0. -/
def Store.add (s : Store) (keys vectors : NDArray) : Store × Option AddErr :=
  match vectors.shape with
  | [n, d] =>
    if s.num_dim.getD 0 = 0 then
      (({ s with num_dim := some d, dtype := some vectors.dtype }).writeBatch keys vectors, none)
    else if s.num_dim ≠ some d then (s, some .dimMismatch)
    else if s.dtype ≠ some vectors.dtype then (s, some .typeMismatch)
    else if keys.shape.headI ≠ n then (s, some .countMismatch)
    else if s.key_dtype ≠ some keys.dtype then (s, some .keyTypeMismatch)
    else (s.writeBatch keys vectors, none)
  | _ => (s, some .rankError)

/-- `BaseNumpyIndexer._load_gzip`. The first component is the returned
optional array, with `Except.error ()` modelling a `ValueError` from
`np.frombuffer` or `reshape` escaping the method (the source catches only
`EOFError`); the second component is the emitted log. `if self.num_dim
and self.dtype` is truthiness again: a recorded dimension of 0 skips the
read entirely, so a truncated stream raises nothing in that case. -/
def Store.load_gzip (s : Store) : Except Unit (Option NDArray) × List Log :=
  match s.file with
  | .absent => (.ok none, [.info .loadingIndex, .warning .dataNotFound])
  | .truncated =>
    match s.num_dim, s.dtype with
    | some d, some _ =>
      if d = 0 then (.ok none, [.info .loadingIndex])
      else (.ok none, [.info .loadingIndex, .error .brokenIndexFile])
    | _, _ => (.ok none, [.info .loadingIndex])
  | .bytes data =>
    match s.num_dim, s.dtype with
    | some d, some t =>
      if d = 0 then (.ok none, [.info .loadingIndex])
      else if data.length % t.itemsize ≠ 0 then (.error (), [.info .loadingIndex])
      else if (data.length / t.itemsize) % d ≠ 0 then (.error (), [.info .loadingIndex])
      else (.ok (some ⟨[data.length / t.itemsize / d, d], t, data⟩), [.info .loadingIndex])
    | _, _ => (.ok none, [.info .loadingIndex])

/-- `np.frombuffer(buf, dtype=kt)` on a buffer whose length divides
evenly: a 1-D array viewing the same bytes. -/
def frombuffer (buf : List Nat) (kt : DType) : NDArray :=
  ⟨[buf.length / kt.itemsize], kt, buf⟩

/-- The key-table derivation step at the top of `raw_ndarray`: when
`key_bytes` is nonempty and `key_dtype` known, reinterpret the buffer as
a 1-D array (`np.frombuffer`); a buffer length that is not a multiple of
the key itemsize raises a `ValueError` that escapes. -/
def Store.assignKeys (s : Store) : Except Unit Store :=
  if s.key_bytes = [] then .ok s
  else
    match s.key_dtype with
    | none => .ok s
    | some kt =>
      if s.key_bytes.length % kt.itemsize ≠ 0 then .error ()
      else .ok { s with int2ext_key := some (frombuffer s.key_bytes kt) }

/-- The reconciliation tail of `raw_ndarray`: pair the loaded array with
the key lookup table; returns the result and the extra log lines. -/
def Store.reconcile (s : Store) (vecs : NDArray) : Option NDArray × List Log :=
  match s.int2ext_key with
  | none => (none, [])
  | some k =>
    match vecs.shape with
    | [rows, _] =>
      if k.shape.headI ≠ rows then (none, [.error .inconsistentSize])
      else if rows = 0 then (some vecs, [.warning .emptyIndex])
      else (some vecs, [])
    | _ => (none, [])

/-- The `raw_ndarray` property: load the file, derive the key table,
reconcile. Returns the optional array together with the possibly updated
state, and the emitted log. -/
def Store.raw_ndarray (s : Store) : Except Unit (Option NDArray × Store) × List Log :=
  match s.load_gzip with
  | (.error e, logs) => (.error e, logs)
  | (.ok none, logs) => (.ok (none, s), logs)
  | (.ok (some vecs), logs) =>
    match s.assignKeys with
    | .error e => (.error e, logs)
    | .ok s2 => (.ok ((s2.reconcile vecs).1, s2), logs ++ (s2.reconcile vecs).2)

/-- `get_query_handler`, with the abstract extension point
`build_advanced_index` passed in as `hook`. -/
def Store.get_query_handler {α : Type} (s : Store) (hook : NDArray → α) :
    Except Unit (Option α × Store) × List Log :=
  match s.raw_ndarray with
  | (.error e, logs) => (.error e, logs)
  | (.ok (none, s2), logs) => (.ok (none, s2), logs)
  | (.ok (some v, s2), logs) => (.ok (some (hook v), s2), logs)

/-- Run a sequence of `add` calls, stopping at the first failure. -/
def Store.addAll (s : Store) : List (NDArray × NDArray) → Store × Option AddErr
  | [] => (s, none)
  | b :: rest =>
    match s.add b.1 b.2 with
    | (s2, none) => s2.addAll rest
    | (s2, some e) => (s2, some e)

/-- One externally visible operation on a live store: a successful
append, a successful load (which may reassign the key lookup table), or
an external change to the backing file between sessions. -/
inductive Step : Store → Store → Prop where
  | add {s s2 : Store} (keys vectors : NDArray) :
      s.add keys vectors = (s2, none) → Step s s2
  | load {s s2 : Store} (r : Option NDArray) :
      (s.raw_ndarray).1 = .ok (r, s2) → Step s s2
  | file (s : Store) (f : FileState) : Step s { s with file := f }

/-- Store states reachable from a fresh store by any operation sequence. -/
inductive Reachable : Store → Prop where
  | init (cl : Nat) : Reachable (Store.init cl)
  | step {s s2 : Store} : Reachable s → Step s s2 → Reachable s2

/-- A batch consistent with schema (D, T, KT): rank-2 vectors whose row
count equals the key count, matching dtypes, and raw byte lengths
agreeing with the shapes. -/
def ConsistentBatch (D : Nat) (T KT : DType) (b : NDArray × NDArray) : Prop :=
  b.2.shape = [b.1.shape.headI, D] ∧ b.2.dtype = T ∧
  b.1.shape = [b.1.shape.headI] ∧ b.1.dtype = KT ∧
  b.1.data.length = b.1.shape.headI * KT.itemsize ∧
  b.2.data.length = b.1.shape.headI * (D * T.itemsize)

instance (D : Nat) (T KT : DType) (b : NDArray × NDArray) :
    Decidable (ConsistentBatch D T KT b) := by
  unfold ConsistentBatch; infer_instance

/-- Intermediate invariant for the count bookkeeping: schema fixed to
(D, T, KT) and the three size measures all equal to n. -/
def SchemaInv (D : Nat) (T KT : DType) (n : Nat) (s : Store) : Prop :=
  s.num_dim = some D ∧ s.dtype = some T ∧ s.key_dtype = some KT ∧
  s.size = n ∧ s.key_bytes.length = n * KT.itemsize ∧
  ∃ data : List Nat, s.file = .bytes data ∧ data.length = n * (D * T.itemsize)

/-- The key lookup table, whenever set, is nonempty. -/
def KeyInv (s : Store) : Prop :=
  ∀ k : NDArray, s.int2ext_key = some k → 1 ≤ k.shape.headI

/-! ## Helper lemmas -/

lemma DType.itemsize_pos (t : DType) : 1 ≤ t.itemsize := by
  cases t <;> simp [DType.itemsize]

/-! ## Claim C1 -/

/-- First-append batch with 1 key (int64) against 2 rows of vectors. -/
def c1Keys : NDArray := ⟨[1], .int64, List.replicate 8 0⟩

def c1Vecs : NDArray := ⟨[2, 3], .float32, List.replicate 24 0⟩

/-- The store after the mismatched first append nevertheless succeeds. -/
def c1Post : Store :=
  { num_dim := some 3, dtype := some .float32, compress_level := 1,
    key_bytes := List.replicate 8 0, key_dtype := some .int64,
    int2ext_key := none, size := 1, file := .bytes (List.replicate 24 0) }

/-- C1 counterexample: on the very first append, before any schema is
fixed, a key count (1) different from the vector row count (2) is not
rejected: the call succeeds and writes, because the first-append branch
of `add` skips the whole validation chain. -/
theorem c1_first_add_skips_count_check :
    (Store.init 1).add c1Keys c1Vecs = (c1Post, none) := by decide

/-- C1 (amended): once the dimension is fixed to a positive D, an append
whose vectors pass the rank, dimension and dtype checks but whose key
count differs from the row count fails with the count-mismatch error and
returns the state unchanged; on the very first append the count check is
skipped (see the counterexample). -/
theorem c1_count_mismatch_after_schema_fixed
    (s : Store) (keys vectors : NDArray) (n D : Nat)
    (hdim : s.num_dim = some D) (hD : 1 ≤ D)
    (hshape : vectors.shape = [n, D])
    (hdtype : s.dtype = some vectors.dtype)
    (hcount : keys.shape.headI ≠ n) :
    s.add keys vectors = (s, some .countMismatch) := by
  unfold Store.add
  rw [hshape]
  simp [hdim, hdtype, hcount, Nat.one_le_iff_ne_zero.mp hD]

/-- Witness for the amended C1 at a concrete schema-fixed store. -/
theorem c1_count_mismatch_witness :
    c1Post.add c1Keys c1Vecs = (c1Post, some .countMismatch) :=
  c1_count_mismatch_after_schema_fixed c1Post c1Keys c1Vecs 2 3 rfl
    (by decide) rfl rfl (by decide)

/-! ## Claim C6 -/

/-- C6: when the backing file is absent (as for a fresh store on which no
append was ever made), the load returns empty with a warning log and no
exception, and materialization returns empty with the state unchanged. -/
theorem c6_missing_file_returns_empty (s : Store) (hf : s.file = .absent) :
    s.load_gzip = (.ok none, [.info .loadingIndex, .warning .dataNotFound]) ∧
    (s.raw_ndarray).1 = .ok (none, s) := by
  constructor
  · simp [Store.load_gzip, hf]
  · simp [Store.raw_ndarray, Store.load_gzip, hf]

/-- Witness for C6 on a fresh store. -/
theorem c6_witness :
    (Store.init 1).load_gzip =
      (.ok none, [.info .loadingIndex, .warning .dataNotFound]) ∧
    ((Store.init 1).raw_ndarray).1 = .ok (none, Store.init 1) :=
  c6_missing_file_returns_empty (Store.init 1) rfl

/-! ## Frame lemmas for the read path -/

lemma assignKeys_frame (s s2 : Store) (h : s.assignKeys = .ok s2) :
    s2.num_dim = s.num_dim ∧ s2.dtype = s.dtype ∧ s2.key_bytes = s.key_bytes ∧
    s2.key_dtype = s.key_dtype ∧ s2.compress_level = s.compress_level ∧
    s2.size = s.size ∧ s2.file = s.file ∧
    (s2 = s ∨ ∃ k : NDArray, s2 = { s with int2ext_key := some k }) := by
  unfold Store.assignKeys at h
  split at h
  · simp only [Except.ok.injEq] at h
    subst h
    simp
  · split at h
    · simp only [Except.ok.injEq] at h
      subst h
      simp
    · split at h
      · exact absurd h (by simp)
      · simp only [Except.ok.injEq] at h
        subst h
        refine ⟨rfl, rfl, rfl, rfl, rfl, rfl, rfl, Or.inr ⟨_, rfl⟩⟩

lemma raw_state (s : Store) (r : Option NDArray) (s2 : Store)
    (h : (s.raw_ndarray).1 = .ok (r, s2)) :
    s2 = s ∨ s.assignKeys = .ok s2 := by
  unfold Store.raw_ndarray at h
  split at h
  · simp at h
  · simp only [Except.ok.injEq, Prod.mk.injEq] at h
    exact Or.inl h.2.symm
  · rename_i vecs logs heq
    split at h
    · simp at h
    · rename_i s3 heq2
      simp only [Except.ok.injEq, Prod.mk.injEq] at h
      exact Or.inr (h.2 ▸ heq2)

lemma raw_frame (s : Store) (r : Option NDArray) (s2 : Store)
    (h : (s.raw_ndarray).1 = .ok (r, s2)) :
    s2.num_dim = s.num_dim ∧ s2.dtype = s.dtype ∧ s2.key_bytes = s.key_bytes ∧
    s2.key_dtype = s.key_dtype ∧ s2.compress_level = s.compress_level ∧
    s2.size = s.size ∧ s2.file = s.file ∧
    (s2 = s ∨ ∃ k : NDArray, s2 = { s with int2ext_key := some k }) := by
  rcases raw_state s r s2 h with rfl | h2
  · simp
  · exact assignKeys_frame s s2 h2

/-! ## Claim C10 -/

/-- C10: a load/materialize call leaves every write-path field of the
store unchanged (`num_dim`, `dtype`, `key_bytes`, `key_dtype`,
`compress_level`, the running count and the backing file) and at most
reassigns the `int2ext_key` lookup table. -/
theorem c10_read_frame (s : Store) (r : Option NDArray) (s2 : Store)
    (h : (s.raw_ndarray).1 = .ok (r, s2)) :
    s2.num_dim = s.num_dim ∧ s2.dtype = s.dtype ∧ s2.key_bytes = s.key_bytes ∧
    s2.key_dtype = s.key_dtype ∧ s2.compress_level = s.compress_level ∧
    s2.size = s.size ∧ s2.file = s.file ∧
    (s2 = s ∨ ∃ k : NDArray, s2 = { s with int2ext_key := some k }) :=
  raw_frame s r s2 h

/-- Witness for C10 on a fresh store. -/
theorem c10_witness :
    (Store.init 1).num_dim = (Store.init 1).num_dim ∧
    (Store.init 1).key_bytes = (Store.init 1).key_bytes ∧
    (Store.init 1).size = (Store.init 1).size := by
  have h := c10_read_frame (Store.init 1) none (Store.init 1) rfl
  exact ⟨h.1, h.2.2.1, h.2.2.2.2.2.1⟩

/-! ## Claim C3 -/

def c3K : NDArray := ⟨[1], .int64, List.replicate 8 0⟩

def c3V1 : NDArray := ⟨[1, 0], .float32, []⟩

def c3V2 : NDArray := ⟨[1, 5], .int64, List.replicate 40 0⟩

/-- Store after a first successful append of shape (1, 0) vectors. -/
def c3s1 : Store :=
  { num_dim := some 0, dtype := some .float32, compress_level := 1,
    key_bytes := List.replicate 8 0, key_dtype := some .int64,
    int2ext_key := none, size := 1, file := .bytes [] }

/-- Store after the second append re-records the schema. -/
def c3s2 : Store :=
  { num_dim := some 5, dtype := some .int64, compress_level := 1,
    key_bytes := List.replicate 16 0, key_dtype := some .int64,
    int2ext_key := none, size := 2, file := .bytes (List.replicate 40 0) }

/-- C3 counterexample: a first successful append with dimension D = 0
records `num_dim = 0`, but the truthiness test of `add` treats 0 like
unset, so the next successful append re-records both `num_dim` and
`dtype` to new values: the schema is not immutable for D = 0. -/
theorem c3_zero_dim_schema_rewritten :
    (Store.init 1).add c3K c3V1 = (c3s1, none) ∧
    c3s1.add c3K c3V2 = (c3s2, none) ∧
    c3s1.num_dim = some 0 ∧ c3s2.num_dim = some 5 ∧
    c3s1.dtype ≠ c3s2.dtype := by decide

/-- C3 (amended): once the dimension is fixed to a positive value D, no
later operation (append, load, or external file change) changes
`num_dim` or `dtype`; a first append with D = 0 records dimension 0,
which the source treats as unset, so the next append re-records the
schema (see the counterexample). -/
theorem c3_schema_immutable_positive_dim (s s2 : Store) (D : Nat)
    (hD : 1 ≤ D) (hdim : s.num_dim = some D) (hstep : Step s s2) :
    s2.num_dim = some D ∧ s2.dtype = s.dtype := by
  cases hstep with
  | add keys vectors h =>
    unfold Store.add at h
    split at h
    · split at h
      · rename_i hz
        rw [hdim] at hz
        simp at hz
        exact absurd hz (Nat.one_le_iff_ne_zero.mp hD)
      · split at h
        · simp at h
        · split at h
          · simp at h
          · split at h
            · simp at h
            · split at h
              · simp at h
              · simp only [Prod.mk.injEq] at h
                rw [← h.1]
                exact ⟨by simp [Store.writeBatch, hdim], by simp [Store.writeBatch]⟩
    · simp at h
  | load r h =>
    have hf := raw_frame s r s2 h
    exact ⟨hf.1 ▸ hdim, hf.2.1⟩
  | file f =>
    exact ⟨hdim, rfl⟩

/-- A schema-fixed store used to witness the amended C3. -/
def c3wS : Store :=
  { num_dim := some 3, dtype := some .float32, compress_level := 1,
    key_bytes := List.replicate 8 0, key_dtype := some .int64,
    int2ext_key := none, size := 1, file := .bytes (List.replicate 12 0) }

/-- Witness for the amended C3: an external file change on a store with
dimension 3 leaves the schema intact. -/
theorem c3_witness :
    ({ c3wS with file := .absent } : Store).num_dim = some 3 ∧
    ({ c3wS with file := .absent } : Store).dtype = c3wS.dtype :=
  c3_schema_immutable_positive_dim c3wS { c3wS with file := .absent } 3
    (by decide) rfl (Step.file c3wS .absent)

/-! ## Claim C4 -/

def c4K1 : NDArray := ⟨[1], .int64, List.replicate 8 0⟩

def c4K2 : NDArray := ⟨[2], .int64, List.replicate 16 0⟩

def c4V0 : NDArray := ⟨[1, 0], .float32, []⟩

def c4V5 : NDArray := ⟨[2, 5], .float32, List.replicate 40 0⟩

/-- Store after a first successful append fixed the dimension to 0. -/
def c4s1 : Store :=
  { num_dim := some 0, dtype := some .float32, compress_level := 1,
    key_bytes := List.replicate 8 0, key_dtype := some .int64,
    int2ext_key := none, size := 1, file := .bytes [] }

/-- C4 counterexample: after a first successful append fixed the
dimension to D = 0, a subsequent append whose vectors have shape[1] = 5
is not rejected with a dimension mismatch: it succeeds (the truthiness
test re-enters the first-append branch) and rewrites the schema. -/
theorem c4_zero_dim_mismatch_not_rejected :
    (Store.init 1).add c4K1 c4V0 = (c4s1, none) ∧
    (c4s1.add c4K2 c4V5).2 = none ∧
    (c4s1.add c4K2 c4V5).1.num_dim = some 5 := by decide

/-- Failing appends return the state unchanged: every raise in `add`
happens before any mutation. -/
lemma add_error_frame (s : Store) (keys vectors : NDArray) (e : AddErr) :
    (s.add keys vectors).2 = some e → (s.add keys vectors).1 = s := by
  unfold Store.add
  split
  · split_ifs <;> simp
  · simp

/-- C4 (amended): once the dimension is fixed to a positive D, an append
whose vectors have a different second shape entry fails with the
dimension-mismatch error and returns the state unchanged; and every
failing append, whatever check fails, returns the state unchanged —
validation completes before any byte is written. (With D = 0 the next
append re-enters the first-append branch and succeeds, see the
counterexample.) -/
theorem c4_dim_mismatch_rejected_atomic
    (s : Store) (keys vectors : NDArray) (n d D : Nat)
    (hdim : s.num_dim = some D) (hD : 1 ≤ D)
    (hshape : vectors.shape = [n, d]) (hne : d ≠ D) :
    s.add keys vectors = (s, some .dimMismatch) ∧
    ∀ (s3 : Store) (k2 v2 : NDArray) (e : AddErr),
      (s3.add k2 v2).2 = some e → (s3.add k2 v2).1 = s3 := by
  constructor
  · unfold Store.add
    rw [hshape]
    simp [hdim, Nat.one_le_iff_ne_zero.mp hD, Ne.symm hne]
  · intro s3 k2 v2 e
    exact add_error_frame s3 k2 v2 e

/-- A schema-fixed store used to witness the amended C4. -/
def c4wS : Store :=
  { num_dim := some 2, dtype := some .float32, compress_level := 1,
    key_bytes := [], key_dtype := none, int2ext_key := none,
    size := 0, file := .absent }

def c4wV : NDArray := ⟨[1, 3], .float32, List.replicate 12 0⟩

/-- Witness for the amended C4: a dimension-3 batch against a store with
fixed dimension 2 is rejected with the dimension-mismatch error. -/
theorem c4_witness :
    c4wS.add c4K1 c4wV = (c4wS, some .dimMismatch) :=
  (c4_dim_mismatch_rejected_atomic c4wS c4K1 c4wV 1 3 2 rfl (by decide)
    rfl (by decide)).1

/-! ## Claim C2 -/

/-- A store with dimension 2 and float32 elements whose complete stream
holds 4 decompressed bytes: a whole number of scalars, but not of rows. -/
def c2sBad : Store :=
  { num_dim := some 2, dtype := some .float32, compress_level := 1,
    key_bytes := [], key_dtype := none, int2ext_key := none,
    size := 0, file := .bytes [0, 0, 0, 0] }

/-- A store with dimension 2 and float32 elements whose gzip stream was
left truncated by an unclosed write session. -/
def c2sTrunc : Store :=
  { num_dim := some 2, dtype := some .float32, compress_level := 1,
    key_bytes := [], key_dtype := none, int2ext_key := none,
    size := 0, file := .truncated }

/-- C2 counterexample: with dimension 2 and element type float32 (row
size 8 bytes), a complete stream of 4 decompressed bytes is not a
multiple of the row size, and the load raises — the `ValueError` from
`reshape` escapes, since the source catches only `EOFError` — instead of
returning empty. -/
theorem c2_misaligned_length_raises :
    (c2sBad.load_gzip).1 = .error () ∧
    4 % (2 * DType.itemsize .float32) ≠ 0 := by decide

/-- C2 (amended): load-time corruption handling is split by cause: a
truncated gzip stream (`EOFError`) is caught, logged at error severity
and normalized to an empty result; but a complete stream whose
decompressed byte length is not a multiple of D * sizeof(T) raises a
`ValueError` that propagates to the caller of the load operation. -/
theorem c2_corruption_behavior (s : Store) (D : Nat) (T : DType)
    (hdim : s.num_dim = some D) (hD : 1 ≤ D) (hdt : s.dtype = some T) :
    (s.file = .truncated →
      (s.load_gzip).1 = .ok none ∧
      Log.error .brokenIndexFile ∈ (s.load_gzip).2) ∧
    (∀ data : List Nat, s.file = .bytes data →
      data.length % (D * T.itemsize) ≠ 0 → (s.load_gzip).1 = .error ()) := by
  constructor
  · intro hf
    simp [Store.load_gzip, hf, hdim, hdt, Nat.one_le_iff_ne_zero.mp hD]
  · intro data hf hmod
    unfold Store.load_gzip
    rw [hf, hdim, hdt]
    simp only [Nat.one_le_iff_ne_zero.mp hD, if_false]
    by_cases h1 : data.length % T.itemsize = 0
    · have hts : T.itemsize ∣ data.length := Nat.dvd_of_mod_eq_zero h1
      have h2 : (data.length / T.itemsize) % D ≠ 0 := by
        intro h2
        apply hmod
        have hq : D ∣ data.length / T.itemsize := Nat.dvd_of_mod_eq_zero h2
        obtain ⟨q, hq⟩ := hq
        have hlen : data.length = D * T.itemsize * q := by
          calc data.length = data.length / T.itemsize * T.itemsize :=
                (Nat.div_mul_cancel hts).symm
            _ = D * q * T.itemsize := by rw [hq]
            _ = D * T.itemsize * q := by ring
        rw [hlen]
        simp [Nat.mul_mod_right]
      simp [h1, h2]
    · simp [h1]

/-- Witness for the amended C2 at the two concrete stores. -/
theorem c2_witness :
    (c2sTrunc.load_gzip).1 = .ok none ∧
    Log.error .brokenIndexFile ∈ (c2sTrunc.load_gzip).2 ∧
    (c2sBad.load_gzip).1 = .error () := by
  have ht := (c2_corruption_behavior c2sTrunc 2 .float32 rfl (by decide) rfl).1 rfl
  have hb := (c2_corruption_behavior c2sBad 2 .float32 rfl (by decide) rfl).2
    [0, 0, 0, 0] rfl (by decide)
  exact ⟨ht.1, ht.2, hb⟩

/-! ## Claim C7 -/

/-- Every array the load path returns is rank 2 (it was reshaped to
(-1, num_dim)). -/
lemma load_gzip_rank2 (s : Store) (v : NDArray)
    (h : (s.load_gzip).1 = .ok (some v)) : ∃ a b, v.shape = [a, b] := by
  unfold Store.load_gzip at h
  split at h
  · simp at h
  · split at h
    · split_ifs at h <;> simp at h
    · simp at h
  · split at h
    · split_ifs at h <;> simp at h
      subst h
      exact ⟨_, _, rfl⟩
    · simp at h

/-- C7: when the load yields a well-formed array but the key table
derived from `key_bytes` has a length different from the vector row
count, materialization logs a reconciliation error and returns empty
rather than the loaded array. -/
theorem c7_key_count_mismatch_returns_empty
    (s : Store) (vecs : NDArray) (kt : DType)
    (hload : (s.load_gzip).1 = .ok (some vecs))
    (hkb : s.key_bytes ≠ []) (hkt : s.key_dtype = some kt)
    (hmul : s.key_bytes.length % kt.itemsize = 0)
    (hne : s.key_bytes.length / kt.itemsize ≠ vecs.shape.headI) :
    (s.raw_ndarray).1 =
      .ok (none, { s with int2ext_key := some (frombuffer s.key_bytes kt) }) ∧
    Log.error .inconsistentSize ∈ (s.raw_ndarray).2 := by
  obtain ⟨a, b, hsh⟩ := load_gzip_rank2 s vecs hload
  have hak : s.assignKeys =
      .ok { s with int2ext_key := some (frombuffer s.key_bytes kt) } := by
    simp [Store.assignKeys, hkb, hkt, hmul]
  have hrec : ({ s with int2ext_key := some (frombuffer s.key_bytes kt) } :
      Store).reconcile vecs = (none, [.error .inconsistentSize]) := by
    have hh : s.key_bytes.length / kt.itemsize ≠ a := by
      simpa [hsh] using hne
    simp [Store.reconcile, frombuffer, hsh, hh]
  rcases hlg : s.load_gzip with ⟨r, lgs⟩
  rw [hlg] at hload
  simp only at hload
  subst hload
  constructor
  · unfold Store.raw_ndarray
    rw [hlg]
    simp [hak, hrec]
  · unfold Store.raw_ndarray
    rw [hlg]
    simp [hak, hrec]

/-- A store whose file holds one float32 row of dimension 2 but whose
key buffer holds two int64 keys. -/
def c7wS : Store :=
  { num_dim := some 2, dtype := some .float32, compress_level := 1,
    key_bytes := List.replicate 16 0, key_dtype := some .int64,
    int2ext_key := none, size := 2, file := .bytes (List.replicate 8 0) }

/-- Witness for C7: the loaded 1-row array is discarded because the key
table has 2 entries. -/
theorem c7_witness :
    (c7wS.raw_ndarray).1 =
      .ok (none,
        { c7wS with int2ext_key := some (frombuffer c7wS.key_bytes .int64) }) ∧
    Log.error .inconsistentSize ∈ (c7wS.raw_ndarray).2 :=
  c7_key_count_mismatch_returns_empty c7wS
    ⟨[1, 2], .float32, List.replicate 8 0⟩ .int64 (by decide) (by decide)
    rfl (by decide) (by decide)

/-! ## Claim C5 -/

/-- The store state after the single round-trip append of C5. -/
def c5mid (N D : Nat) (Vdt Kdt : DType) (Vda Kda : List Nat) : Store :=
  { num_dim := some D, dtype := some Vdt, compress_level := 1,
    key_bytes := Kda, key_dtype := some Kdt, int2ext_key := none,
    size := N, file := .bytes Vda }

/-- C5 (amended): round trip for nonempty data. Writing vectors V of
shape N x D (N, D ≥ 1) together with keys K of length N into a fresh
store and then materializing returns exactly the written array, and the
key lookup table is set to exactly the written keys. (For N = 0 the key
buffer stays empty, the lookup table stays unset, and materialization
returns empty instead — see the counterexample.) -/
theorem c5_roundtrip (V K : NDArray) (N D : Nat)
    (hV : V.shape = [N, D]) (hVlen : V.data.length = N * (D * V.dtype.itemsize))
    (hK : K.shape = [N]) (hKlen : K.data.length = N * K.dtype.itemsize)
    (hN : 1 ≤ N) (hD : 1 ≤ D) :
    ((Store.init 1).add K V).2 = none ∧
    ((((Store.init 1).add K V).1).raw_ndarray).1 =
      .ok (some V, { ((Store.init 1).add K V).1 with int2ext_key := some K }) := by
  obtain ⟨Vsh, Vdt, Vda⟩ := V
  obtain ⟨Ksh, Kdt, Kda⟩ := K
  simp only at hV hK hVlen hKlen
  subst hV
  subst hK
  have hD0 : D ≠ 0 := Nat.one_le_iff_ne_zero.mp hD
  have hN0 : N ≠ 0 := Nat.one_le_iff_ne_zero.mp hN
  have hvits : 0 < Vdt.itemsize := DType.itemsize_pos Vdt
  have hkits : 0 < Kdt.itemsize := DType.itemsize_pos Kdt
  have h1 : Vda.length % Vdt.itemsize = 0 := by
    rw [hVlen, ← Nat.mul_assoc]
    exact Nat.mul_mod_left _ _
  have h2 : Vda.length / Vdt.itemsize = N * D := by
    rw [hVlen, ← Nat.mul_assoc]
    exact Nat.mul_div_cancel _ hvits
  have h3 : N * D % D = 0 := Nat.mul_mod_left N D
  have h4 : N * D / D = N := Nat.mul_div_cancel N (Nat.pos_of_ne_zero hD0)
  have h5 : Kda.length % Kdt.itemsize = 0 := by
    rw [hKlen]
    exact Nat.mul_mod_left _ _
  have h6 : Kda.length / Kdt.itemsize = N := by
    rw [hKlen]
    exact Nat.mul_div_cancel _ hkits
  have h7 : Kda ≠ [] := by
    apply List.ne_nil_of_length_pos
    rw [hKlen]
    exact Nat.mul_pos hN hkits
  have hadd : (Store.init 1).add ⟨[N], Kdt, Kda⟩ ⟨[N, D], Vdt, Vda⟩ =
      (c5mid N D Vdt Kdt Vda Kda, none) := by
    simp [Store.add, Store.init, Store.writeBatch, FileState.write, c5mid]
  rw [hadd]
  refine ⟨rfl, ?_⟩
  have hload : (c5mid N D Vdt Kdt Vda Kda).load_gzip =
      (.ok (some ⟨[N, D], Vdt, Vda⟩), [.info .loadingIndex]) := by
    simp [Store.load_gzip, c5mid, hD0, h1, h2, h3, h4]
  have hak : (c5mid N D Vdt Kdt Vda Kda).assignKeys =
      .ok { c5mid N D Vdt Kdt Vda Kda with int2ext_key := some ⟨[N], Kdt, Kda⟩ } := by
    simp [Store.assignKeys, c5mid, frombuffer, h5, h6, h7]
  unfold Store.raw_ndarray
  rw [hload]
  simp [hak, Store.reconcile, hN0]

/-- Degenerate batch: 0 keys and a 0 x 2 vector array. -/
def c5K : NDArray := ⟨[0], .int64, []⟩

def c5V : NDArray := ⟨[0, 2], .float32, []⟩

/-- The store after appending the degenerate batch. -/
def c5s : Store :=
  { num_dim := some 2, dtype := some .float32, compress_level := 1,
    key_bytes := [], key_dtype := some .int64, int2ext_key := none,
    size := 0, file := .bytes [] }

/-- C5 counterexample: for N = 0 the append succeeds, the load even
yields a well-formed 0 x 2 array, but materialization returns empty (the
key buffer is empty so no lookup table is ever derived), so the
claimed round trip fails for empty inputs. -/
theorem c5_empty_roundtrip_returns_none :
    (Store.init 1).add c5K c5V = (c5s, none) ∧
    (c5s.raw_ndarray).1 = .ok (none, c5s) ∧
    (c5s.load_gzip).1 = .ok (some ⟨[0, 2], .float32, []⟩) := by decide

def c5wV : NDArray := ⟨[1, 2], .float32, List.replicate 8 0⟩

def c5wK : NDArray := ⟨[1], .int64, List.replicate 8 0⟩

/-- Witness for the amended C5 at a concrete 1 x 2 batch. -/
theorem c5_roundtrip_witness :
    ((Store.init 1).add c5wK c5wV).2 = none ∧
    ((((Store.init 1).add c5wK c5wV).1).raw_ndarray).1 =
      .ok (some c5wV,
        { ((Store.init 1).add c5wK c5wV).1 with int2ext_key := some c5wK }) :=
  c5_roundtrip c5wV c5wK 1 2 rfl (by decide) rfl (by decide)
    (by decide) (by decide)

/-! ## Claim C8 -/

/-- A consistent batch appended to a store satisfying the schema
invariant succeeds and extends all three size measures in lockstep. -/
lemma add_consistent (D : Nat) (T KT : DType) (n : Nat) (s : Store)
    (b : NDArray × NDArray) (hD : 1 ≤ D) (hs : SchemaInv D T KT n s)
    (hb : ConsistentBatch D T KT b) :
    (s.add b.1 b.2).2 = none ∧
    SchemaInv D T KT (n + b.1.shape.headI) (s.add b.1 b.2).1 := by
  obtain ⟨hdim, hdt, hkdt, hsz, hkb, data, hfile, hdl⟩ := hs
  obtain ⟨hbs, hbd, hks, hkd, hkl, hvl⟩ := hb
  have hD0 : D ≠ 0 := Nat.one_le_iff_ne_zero.mp hD
  have hred : s.add b.1 b.2 = (s.writeBatch b.1 b.2, none) := by
    unfold Store.add
    rw [hbs]
    simp [hdim, hdt, hkdt, hbd, hkd, hD0]
  rw [hred]
  refine ⟨rfl, ?_⟩
  unfold SchemaInv
  refine ⟨?_, ?_, ?_, ?_, ?_, data ++ b.2.data, ?_, ?_⟩ <;>
    simp [Store.writeBatch, hdim, hdt, hkd, hsz, hkb, hkl, hfile, hdl, hvl,
      FileState.write, Nat.add_mul]

/-- Appending a consistent batch to a fresh store succeeds and
establishes the schema invariant. -/
lemma add_first (D : Nat) (T KT : DType) (cl : Nat) (b : NDArray × NDArray)
    (hb : ConsistentBatch D T KT b) :
    ((Store.init cl).add b.1 b.2).2 = none ∧
    SchemaInv D T KT b.1.shape.headI ((Store.init cl).add b.1 b.2).1 := by
  obtain ⟨hbs, hbd, hks, hkd, hkl, hvl⟩ := hb
  have hred : (Store.init cl).add b.1 b.2 =
      (({ Store.init cl with num_dim := some D, dtype := some b.2.dtype }).writeBatch b.1 b.2, none) := by
    unfold Store.add
    rw [hbs]
    simp [Store.init]
  rw [hred]
  refine ⟨rfl, ?_⟩
  unfold SchemaInv
  refine ⟨?_, ?_, ?_, ?_, ?_, b.2.data, ?_, ?_⟩ <;>
    simp [Store.writeBatch, Store.init, hbd, hkd, hkl, hvl, FileState.write]

/-- Folding consistent batches over a store satisfying the schema
invariant preserves it, accumulating the row counts. -/
lemma addAll_consistent (D : Nat) (T KT : DType) (hD : 1 ≤ D) :
    ∀ (bs : List (NDArray × NDArray)) (s : Store) (n : Nat),
      SchemaInv D T KT n s → (∀ b ∈ bs, ConsistentBatch D T KT b) →
      (s.addAll bs).2 = none ∧
      SchemaInv D T KT (n + (bs.map fun b => b.1.shape.headI).sum)
        (s.addAll bs).1 := by
  intro bs
  induction bs with
  | nil =>
    intro s n hs _
    simpa [Store.addAll] using hs
  | cons b rest ih =>
    intro s n hs hc
    have hb := hc b (List.mem_cons_self b rest)
    have h1 := add_consistent D T KT n s b hD hs hb
    rcases hadd : s.add b.1 b.2 with ⟨s2, e⟩
    rw [hadd] at h1
    simp only at h1
    obtain ⟨he, hinv⟩ := h1
    subst he
    have hstep : s.addAll (b :: rest) = s2.addAll rest := by
      simp only [Store.addAll]
      rw [hadd]
    rw [hstep]
    have h2 := ih s2 (n + b.1.shape.headI) hinv
      (fun b2 hb2 => hc b2 (List.mem_cons_of_mem b hb2))
    simpa [Nat.add_assoc] using h2

/-- C8: a sequence of consistent batches (vectors of shape N_i x D with
dtype T, keys of length N_i with dtype KT, D ≥ 1) all succeeds, and
afterwards the running count equals the sum of the N_i, equals the key
buffer length divided by the key itemsize, and equals the file byte
length divided by the row byte size D * sizeof(T). -/
theorem c8_count_invariant (D : Nat) (T KT : DType)
    (bs : List (NDArray × NDArray)) (hD : 1 ≤ D)
    (hc : ∀ b ∈ bs, ConsistentBatch D T KT b) :
    ((Store.init 1).addAll bs).2 = none ∧
    ((Store.init 1).addAll bs).1.size =
      (bs.map fun b => b.1.shape.headI).sum ∧
    ((Store.init 1).addAll bs).1.key_bytes.length / KT.itemsize =
      ((Store.init 1).addAll bs).1.size ∧
    ((Store.init 1).addAll bs).1.file.byteLength / (D * T.itemsize) =
      ((Store.init 1).addAll bs).1.size := by
  have hrow : 0 < D * T.itemsize :=
    Nat.mul_pos (Nat.pos_of_ne_zero (Nat.one_le_iff_ne_zero.mp hD))
      (DType.itemsize_pos T)
  cases bs with
  | nil =>
    refine ⟨rfl, rfl, ?_, ?_⟩ <;>
      simp [Store.addAll, Store.init, FileState.byteLength]
  | cons b rest =>
    have hb := hc b (List.mem_cons_self b rest)
    have h1 := add_first D T KT 1 b hb
    rcases hadd : (Store.init 1).add b.1 b.2 with ⟨s2, e⟩
    rw [hadd] at h1
    simp only at h1
    obtain ⟨he, hinv⟩ := h1
    subst he
    have hstep : (Store.init 1).addAll (b :: rest) = s2.addAll rest := by
      simp only [Store.addAll]
      rw [hadd]
    rw [hstep]
    have h2 := addAll_consistent D T KT hD rest s2 b.1.shape.headI hinv
      (fun b2 hb2 => hc b2 (List.mem_cons_of_mem b hb2))
    obtain ⟨hok, hinv2⟩ := h2
    obtain ⟨hdim2, hdt2, hkdt2, hsz2, hkb2, data2, hfile2, hdl2⟩ := hinv2
    refine ⟨hok, ?_, ?_, ?_⟩
    · rw [hsz2]
      simp
    · rw [hkb2, hsz2]
      exact Nat.mul_div_cancel _ (DType.itemsize_pos KT)
    · rw [hfile2]
      simp only [FileState.byteLength, hdl2, hsz2]
      exact Nat.mul_div_cancel _ hrow

def c8K : NDArray := ⟨[2], .int64, List.replicate 16 0⟩

def c8V : NDArray := ⟨[2, 3], .float32, List.replicate 24 0⟩

/-- Witness for C8: two consistent batches of 2 rows each. -/
theorem c8_witness :
    ((Store.init 1).addAll [(c8K, c8V), (c8K, c8V)]).2 = none ∧
    ((Store.init 1).addAll [(c8K, c8V), (c8K, c8V)]).1.size =
      ([(c8K, c8V), (c8K, c8V)].map fun b => b.1.shape.headI).sum ∧
    ((Store.init 1).addAll [(c8K, c8V), (c8K, c8V)]).1.key_bytes.length /
        DType.itemsize .int64 =
      ((Store.init 1).addAll [(c8K, c8V), (c8K, c8V)]).1.size ∧
    ((Store.init 1).addAll [(c8K, c8V), (c8K, c8V)]).1.file.byteLength /
        (3 * DType.itemsize .float32) =
      ((Store.init 1).addAll [(c8K, c8V), (c8K, c8V)]).1.size :=
  c8_count_invariant 3 .float32 .int64 [(c8K, c8V), (c8K, c8V)]
    (by decide) (by decide)

/-! ## Claim C9 -/

/-- A successful append never touches the key lookup table. -/
lemma add_int2ext (s : Store) (keys vectors : NDArray) :
    ((s.add keys vectors).1).int2ext_key = s.int2ext_key := by
  unfold Store.add
  split
  · split_ifs <;> simp [Store.writeBatch]
  · rfl

/-- The key-table derivation step preserves nonemptiness of the table. -/
lemma assignKeys_keyInv (s s2 : Store) (h : s.assignKeys = .ok s2)
    (hs : KeyInv s) : KeyInv s2 := by
  unfold Store.assignKeys at h
  split at h
  · simp only [Except.ok.injEq] at h
    subst h
    exact hs
  · rename_i hkb
    split at h
    · simp only [Except.ok.injEq] at h
      subst h
      exact hs
    · rename_i kt hkt
      split at h
      · exact absurd h (by simp)
      · rename_i hmul
        simp only [Except.ok.injEq] at h
        subst h
        intro k hk
        simp only [Option.some.injEq] at hk
        subst hk
        simp only [frombuffer, List.headI]
        have hdvd : kt.itemsize ∣ s.key_bytes.length :=
          Nat.dvd_of_mod_eq_zero (by simpa using hmul)
        have hpos : 0 < s.key_bytes.length :=
          List.length_pos.mpr hkb
        exact Nat.div_pos (Nat.le_of_dvd hpos hdvd) (DType.itemsize_pos kt)

/-- Every reachable store state satisfies the key-table invariant. -/
lemma keyInv_reachable (s : Store) (h : Reachable s) : KeyInv s := by
  induction h with
  | init cl =>
    intro k hk
    simp [Store.init] at hk
  | step hr hstep ih =>
    rename_i s1 s2
    cases hstep with
    | add keys vectors hadd =>
      intro k hk
      apply ih k
      have hpre := add_int2ext s1 keys vectors
      rw [hadd] at hpre
      rw [← hpre]
      exact hk
    | load r hload =>
      rcases raw_state s1 r s2 hload with rfl | h2
      · exact ih
      · exact assignKeys_keyInv s1 s2 h2 ih
    | file f =>
      intro k hk
      exact ih k hk

/-- When reconciliation returns an array, that array is the loaded one,
it is rank 2, and its row count matches the key table length. -/
lemma reconcile_some (s : Store) (vecs w : NDArray) (lg : List Log)
    (h : s.reconcile vecs = (some w, lg)) :
    w = vecs ∧ ∃ k rows d2, s.int2ext_key = some k ∧
      vecs.shape = [rows, d2] ∧ k.shape.headI = rows := by
  unfold Store.reconcile at h
  split at h
  · simp at h
  · rename_i k hk
    split at h
    · rename_i rows d2 hsh
      split_ifs at h with h1 h2
      · simp at h
      · simp only [Prod.mk.injEq, Option.some.injEq] at h
        exact ⟨h.1.symm, k, rows, d2, hk, hsh, by simpa using h1⟩
      · simp only [Prod.mk.injEq, Option.some.injEq] at h
        exact ⟨h.1.symm, k, rows, d2, hk, hsh, by simpa using h1⟩
    · simp at h

/-- When `raw_ndarray` returns an array, the post state came from the
key-derivation step, the array is rank 2, and its row count matches the
key table length in the post state. -/
lemma raw_some (s : Store) (v : NDArray) (s2 : Store)
    (h : (s.raw_ndarray).1 = .ok (some v, s2)) :
    s.assignKeys = .ok s2 ∧ ∃ k rows d2, s2.int2ext_key = some k ∧
      v.shape = [rows, d2] ∧ k.shape.headI = rows := by
  unfold Store.raw_ndarray at h
  split at h
  · simp at h
  · simp at h
  · rename_i vecs logs heq
    split at h
    · simp at h
    · rename_i s3 heq2
      simp only [Except.ok.injEq, Prod.mk.injEq] at h
      obtain ⟨h1, h2⟩ := h
      subst h2
      rcases hrec : s3.reconcile vecs with ⟨r, lg⟩
      rw [hrec] at h1
      simp only at h1
      subst h1
      obtain ⟨hw, k, rows, d2, hk, hsh, hhead⟩ :=
        reconcile_some s3 vecs v lg hrec
      exact ⟨heq2, k, rows, d2, hk, hw ▸ hsh, hhead⟩

/-- C9: on any reachable store state, the query path invokes the
advanced-index hook only when materialization produced a nonempty,
rank-2, key-aligned array (key table length equal to the row count);
whenever materialization returns empty, the hook is not invoked and the
query path returns empty. -/
theorem c9_hook_only_on_aligned_nonempty {α : Type} (hook : NDArray → α)
    (s : Store) (hs : Reachable s) :
    (∀ (r : α) (s2 : Store),
      (s.get_query_handler hook).1 = .ok (some r, s2) →
      ∃ v rows d2 k, (s.raw_ndarray).1 = .ok (some v, s2) ∧ r = hook v ∧
        v.shape = [rows, d2] ∧ 1 ≤ rows ∧ s2.int2ext_key = some k ∧
        k.shape.headI = rows) ∧
    (∀ s2 : Store, (s.raw_ndarray).1 = .ok (none, s2) →
      (s.get_query_handler hook).1 = .ok (none, s2)) := by
  constructor
  · intro r s2 h
    unfold Store.get_query_handler at h
    rcases hraw : s.raw_ndarray with ⟨res, lg⟩
    rw [hraw] at h
    match res, h with
    | .ok (some v, s3), h =>
      simp only [Except.ok.injEq, Prod.mk.injEq, Option.some.injEq] at h
      obtain ⟨hr, hs3⟩ := h
      have hraw1 : (s.raw_ndarray).1 = .ok (some v, s2) := by
        rw [hraw, hs3]
      obtain ⟨hak, k, rows, d2, hk, hsh, hhead⟩ := raw_some s v s2 hraw1
      have hreach2 : Reachable s2 :=
        Reachable.step hs (Step.load (some v) hraw1)
      have hrows : 1 ≤ rows := hhead ▸ keyInv_reachable s2 hreach2 k hk
      exact ⟨v, rows, d2, k, by rw [hs3], hr.symm, hsh, hrows, hk, hhead⟩
    | .ok (none, s3), h => simp at h
    | .error e, h => simp at h
  · intro s2 h
    unfold Store.get_query_handler
    rcases hraw : s.raw_ndarray with ⟨res, lg⟩
    rw [hraw] at h
    simp only at h
    subst h
    rfl

/-- Witness for C9 on a fresh store: materialization returns empty and
the query path returns empty without invoking the hook. -/
theorem c9_witness :
    ((Store.init 1).get_query_handler (fun v => v)).1 =
      .ok (none, Store.init 1) :=
  (c9_hook_only_on_aligned_nonempty (fun v => v) (Store.init 1)
    (Reachable.init 1)).2 (Store.init 1) rfl
